import Mathlib

/-!
Verification of the Ensuro prototype accounting core (`src/api/prototype.py`)
against its natural-language specification.

The prototype imports a fixed-point module `wadray` (types `Wad`, `Ray`) that
is not part of the sources at hand; that layer is modelled from the
specification, section 4.1: scaled integers at 10^18 (`Wad`) and 10^27
(`Ray`), scale-preserving multiplication and division with truncation toward
zero, and lossless conversion `Wad -> Ray` by 10^9.  Everything else is a
direct translation of `prototype.py`: the global clock `now()` becomes an
explicit argument `t`, Python dicts become insertion-ordered association
lists, and Python `assert` failures become `Except` errors.
-/

namespace Ensuro

/-- Scale of `Wad` fixed-point values (18 decimals). Modelled from the spec. -/
def WAD : Int := 10 ^ 18

/-- Scale of `Ray` fixed-point values (27 decimals). Modelled from the spec. -/
def RAY : Int := 10 ^ 27

/-- Seconds in a year, as in `prototype.py` (`365 * 24 * 3600`). -/
def SECONDS_IN_YEAR : Int := 365 * 24 * 3600

/-- Modelled from the spec: `Wad` multiplication `(a.raw * b.raw) / SCALE`,
truncated toward zero. -/
def wadMul (a b : Int) : Int := Int.tdiv (a * b) WAD

/-- Modelled from the spec: `Wad` division `(a.raw * SCALE) / b.raw`,
truncated toward zero. -/
def wadDiv (a b : Int) : Int := Int.tdiv (a * WAD) b

/-- Modelled from the spec: `Ray` multiplication `(a.raw * b.raw) / SCALE`,
truncated toward zero. -/
def rayMul (a b : Int) : Int := Int.tdiv (a * b) RAY

/-- Modelled from the spec: `Ray` division `(a.raw * SCALE) / b.raw`,
truncated toward zero. -/
def rayDiv (a b : Int) : Int := Int.tdiv (a * RAY) b

/-- Modelled from the spec: `Wad.to_ray()` multiplies the representation
by 10^9. -/
def wadToRay (a : Int) : Int := a * 10 ^ 9

/-- Modelled from the spec: `Ray.to_wad()` divides the representation by 10^9,
truncated toward zero. -/
def rayToWad (a : Int) : Int := Int.tdiv a (10 ^ 9)

/-- Modelled from the spec: `Wad.from_value(n) = n * SCALE`. -/
def wadFromValue (n : Int) : Int := n * WAD

/-- Modelled from the spec: `Ray.from_value(n) = n * SCALE`. -/
def rayFromValue (n : Int) : Int := n * RAY

/-- Lookup in an insertion-ordered association list (Python dict read). -/
def alookup {V : Type} : List (String × V) → String → Option V
  | [], _ => none
  | (k1, v) :: rest, k => if k = k1 then some v else alookup rest k

/-- Write to an insertion-ordered association list (Python `d[k] = v`):
replace in place when the key exists, otherwise append. -/
def aset {V : Type} : List (String × V) → String → V → List (String × V)
  | [], k, v => [(k, v)]
  | (k1, v1) :: rest, k, v =>
    if k = k1 then (k, v) :: rest else (k1, v1) :: aset rest k v

/-- Delete from an insertion-ordered association list (Python `del d[k]`). -/
def aerase {V : Type} : List (String × V) → String → List (String × V)
  | [], _ => []
  | (k1, v1) :: rest, k => if k = k1 then rest else (k1, v1) :: aerase rest k

/-- Errors of the core; Python raises `AssertionError` or `KeyError`, the spec
names the conditions (section 7). -/
inductive PErr where
  | riskModuleNotFound
  | invalidPolicy
  | insufficientCapital
  | insufficientOcean
  | poolNotFound
deriving DecidableEq, Repr

/-- Python `RiskModule` from `prototype.py`: immutable parameters of one class of
insurance.  The percentages are `Ray` fractions. -/
structure RiskModule where
  name : String
  mcr_percentage : Int
  premium_share : Int
  ensuro_share : Int
deriving DecidableEq, Repr

/-- Python `RiskModule.build`: integer percentages 0-100 divided by 100 into `Ray`
fractions. -/
def RiskModule.build (name : String) (mcr_percentage premium_share ensuro_share : Int) :
    RiskModule :=
  { name := name
    mcr_percentage := rayDiv (rayFromValue mcr_percentage) (rayFromValue 100)
    premium_share := rayDiv (rayFromValue premium_share) (rayFromValue 100)
    ensuro_share := rayDiv (rayFromValue ensuro_share) (rayFromValue 100) }

/-- Python `Policy` from `prototype.py`.  `mcr` is computed at construction as
`((payout - premium).to_ray() * risk_module.mcr_percentage).to_wad()`. -/
structure Policy where
  policy_id : Int
  risk_module : RiskModule
  premium : Int
  payout : Int
  mcr : Int
  loss_prob : Int
  start : Int
  expiration : Int
  locked_funds : List (String × Int)
deriving DecidableEq, Repr

/-- Constructor of `Policy`, mirroring `Policy.__init__`. -/
def Policy.build (policy_id : Int) (risk_module : RiskModule)
    (payout premium loss_prob start expiration : Int) : Policy :=
  { policy_id := policy_id
    risk_module := risk_module
    premium := premium
    payout := payout
    mcr := rayToWad (rayMul (wadToRay (payout - premium)) risk_module.mcr_percentage)
    loss_prob := loss_prob
    start := start
    expiration := expiration
    locked_funds := [] }

/-- Python `Policy.pure_premium` property: `(payout.to_ray() * loss_prob).to_wad()`. -/
def Policy.pure_premium (p : Policy) : Int :=
  rayToWad (rayMul (wadToRay p.payout) p.loss_prob)

/-- Python `Policy.interest_rate` property of `prototype.py`, computed from the
profit premium and the risk-module shares. -/
def Policy.interest_rate (p : Policy) : Int :=
  let profit_premium := p.premium - p.pure_premium
  let for_ensuro := rayToWad (rayMul (wadToRay profit_premium) p.risk_module.ensuro_share)
  let for_risk_module := rayToWad (rayMul (wadToRay profit_premium) p.risk_module.premium_share)
  let for_lps := profit_premium - for_ensuro - for_risk_module
  wadToRay (wadDiv (wadMul for_lps (wadFromValue SECONDS_IN_YEAR))
    (wadMul (wadFromValue (p.expiration - p.start)) p.mcr))

/-- Python `EToken` from `prototype.py`: a capital pool with a rebasing index.
The three provider-keyed Python dicts become association lists. -/
structure EToken where
  name : String
  expiration_period : Int
  current_index : Int
  last_index_update : Int
  balances : List (String × Int)
  indexes : List (String × Int)
  timestamps : List (String × Int)
  mcr : Int
  mcr_interest_rate : Int
  token_interest_rate : Int
deriving DecidableEq, Repr

/-- Python `EToken.__init__`: fresh pool at time `t` with index one. -/
def EToken.build (name : String) (expiration_period t : Int) : EToken :=
  { name := name
    expiration_period := expiration_period
    current_index := RAY
    last_index_update := t
    balances := []
    indexes := []
    timestamps := []
    mcr := 0
    mcr_interest_rate := 0
    token_interest_rate := 0 }

/-- Python `EToken._calculate_current_index`: linear projection of the index from
`last_index_update` to `t` at `token_interest_rate`. -/
def EToken._calculate_current_index (e : EToken) (t : Int) : Int :=
  let increment :=
    rayDiv (rayMul (rayMul e.current_index (rayFromValue (t - e.last_index_update)))
      e.token_interest_rate) (rayFromValue SECONDS_IN_YEAR)
  e.current_index + increment

/-- Python `EToken._update_current_index`: realize the projected index at `t`. -/
def EToken._update_current_index (e : EToken) (t : Int) : EToken :=
  { e with current_index := e._calculate_current_index t, last_index_update := t }

/-- Python `EToken.total_supply`: sum of stored balances scaled by the projected
index; a read that performs no state update. -/
def EToken.total_supply (e : EToken) (t : Int) : Int :=
  let base_supply := e.balances.foldl (fun acc kv => acc + kv.2) 0
  rayToWad (rayMul (wadToRay base_supply) (e._calculate_current_index t))

/-- Python `EToken.ocean` property: free capital `total_supply() - mcr`. -/
def EToken.ocean (e : EToken) (t : Int) : Int := e.total_supply t - e.mcr

/-- Python `EToken.balance_of`: zero for unknown providers; otherwise realize the
index and scale the stored balance by `current_index / indexes[provider]`.
Returns the value and the (possibly index-realized) pool state. -/
def EToken.balance_of (e : EToken) (provider : String) (t : Int) : Int × EToken :=
  match alookup e.balances provider with
  | none => (0, e)
  | some principal_balance =>
    let e1 := e._update_current_index t
    (rayToWad (rayDiv (rayMul (wadToRay principal_balance) e1.current_index)
      ((alookup e1.indexes provider).getD 0)), e1)

/-- Python `EToken.deposit`: realize the index, add to the visible balance, snapshot
the entry index and timestamp.  Returns the new stored balance and state. -/
def EToken.deposit (e : EToken) (provider : String) (amount t : Int) : Int × EToken :=
  let e1 := e._update_current_index t
  let b := (e1.balance_of provider t).1
  let e2 := (e1.balance_of provider t).2
  let nb := b + amount
  (nb, { e2 with
    balances := aset e2.balances provider nb
    indexes := aset e2.indexes provider e2.current_index
    timestamps := aset e2.timestamps provider t })

/-- Python `EToken.redeem`: zero and no map change when the visible balance is zero;
otherwise clamp the amount, store the remainder before realizing the index,
and on a full redemption delete the provider from all three maps. -/
def EToken.redeem (e : EToken) (provider : String) (amount : Option Int) (t : Int) :
    Int × EToken :=
  let balance := (e.balance_of provider t).1
  let e1 := (e.balance_of provider t).2
  if balance = 0 then (0, e1)
  else
    let amt := match amount with
      | none => balance
      | some a => if balance < a then balance else a
    let e2 := { e1 with balances := aset e1.balances provider (balance - amt) }
    let e3 := e2._update_current_index t
    if balance = amt then
      (amt, { e3 with
        balances := aerase e3.balances provider
        indexes := aerase e3.indexes provider
        timestamps := aerase e3.timestamps provider })
    else
      (amt, { e3 with
        indexes := aset e3.indexes provider e3.current_index
        timestamps := aset e3.timestamps provider t })

/-- Python `EToken.accepts`: a pool accepts a policy iff the policy expires within
the pool expiration period. -/
def EToken.accepts (e : EToken) (policy : Policy) (t : Int) : Bool :=
  policy.expiration ≤ t + e.expiration_period

/-- Python `EToken.lock_mcr`: check `mcr_amount <= ocean` (Python `assert`), realize
the index, update `mcr` and the capital-weighted `mcr_interest_rate`, then
derive `token_interest_rate` from the total supply read at entry.  The
division of the blended numerator by the `Wad` total `mcr` is modelled from
the spec formula `(rate * old_mcr + policy_rate * amount) / (old_mcr + amount)`
by lifting the `Wad` divisor to `Ray`. -/
def EToken.lock_mcr (e : EToken) (policy : Policy) (mcr_amount t : Int) :
    Except PErr EToken :=
  let total_supply := e.total_supply t
  let ocean := total_supply - e.mcr
  if mcr_amount ≤ ocean then
    let e1 := e._update_current_index t
    let e2 :=
      if e1.mcr = 0 then
        { e1 with mcr := mcr_amount, mcr_interest_rate := policy.interest_rate }
      else
        { e1 with
          mcr := e1.mcr + mcr_amount
          mcr_interest_rate :=
            rayDiv (rayMul e1.mcr_interest_rate (wadToRay e1.mcr) +
              rayMul policy.interest_rate (wadToRay mcr_amount))
              (wadToRay (e1.mcr + mcr_amount)) }
    .ok { e2 with
      token_interest_rate :=
        rayDiv (rayMul e2.mcr_interest_rate (wadToRay e2.mcr)) (wadToRay total_supply) }
  else
    .error .insufficientOcean

/-- Python `Protocol` from `prototype.py`: registries by name, the list of issued
policies, and the monotone policy counter. -/
structure Protocol where
  risk_modules : List (String × RiskModule)
  etokens : List (String × EToken)
  policies : List Policy
  policy_count : Int
deriving DecidableEq, Repr

/-- Python `Protocol.build` with empty registries. -/
def Protocol.build : Protocol :=
  { risk_modules := [], etokens := [], policies := [], policy_count := 0 }

/-- Python `Protocol.add_risk_module`: register by name, last write wins. -/
def Protocol.add_risk_module (p : Protocol) (rm : RiskModule) : Protocol :=
  { p with risk_modules := aset p.risk_modules rm.name rm }

/-- Python `Protocol.add_etoken`: register by name, last write wins. -/
def Protocol.add_etoken (p : Protocol) (etk : EToken) : Protocol :=
  { p with etokens := aset p.etokens etk.name etk }

/-- First loop of `Protocol.new_policy`: walk the pools in registration order,
skip a pool when it rejects the policy or its ocean is zero, and otherwise
accumulate the total ocean and record `(name, ocean)`. -/
def collectStep (policy : Policy) (t : Int) (acc : Int × List (String × Int))
    (kv : String × EToken) : Int × List (String × Int) :=
  if ¬ kv.2.accepts policy t then acc
  else
    let ocean_token := kv.2.ocean t
    if ocean_token = 0 then acc
    else (acc.1 + ocean_token, acc.2 ++ [(kv.2.name, ocean_token)])

def collectOcean (etokens : List (String × EToken)) (policy : Policy) (t : Int) :
    Int × List (String × Int) :=
  etokens.foldl (collectStep policy t) (0, [])

/-- Second loop of `Protocol.new_policy`: allocate to each recorded pool its
proportional truncated share, the last pool receiving whatever remains, and
lock each share in the named pool.  Returns the updated pool registry and the
`locked_funds` entries; on a failing lock the registry reflects the locks
already performed, as mutation does in the Python original. -/
def lockLoop (etokens : List (String × EToken)) (pairs : List (String × Int))
    (policy : Policy) (mcr ocean mcr_not_locked t : Int) :
    List (String × EToken) × Except PErr (List (String × Int)) :=
  match pairs with
  | [] => (etokens, .ok [])
  | (token_name, ocean_token) :: rest =>
    let mcr_for_token :=
      if rest.isEmpty then mcr_not_locked
      else wadDiv (wadMul mcr ocean_token) ocean
    match alookup etokens token_name with
    | none => (etokens, .error .poolNotFound)
    | some etk =>
      match etk.lock_mcr policy mcr_for_token t with
      | .error err => (etokens, .error err)
      | .ok etk1 =>
        let etokens1 := aset etokens token_name etk1
        match lockLoop etokens1 rest policy mcr ocean (mcr_not_locked - mcr_for_token) t with
        | (etokens2, .error err) => (etokens2, .error err)
        | (etokens2, .ok funds) => (etokens2, .ok ((token_name, mcr_for_token) :: funds))

/-- Python `Protocol.new_policy` from `prototype.py`.  The pair returned is the
protocol state after the call together with the issued policy or the error;
Python mutates `self` in place, so a failing call still carries the mutations
made before the raise (in particular the `policy_count` increment). -/
def Protocol.new_policy (p : Protocol) (risk_module_name : String)
    (payout premium loss_prob expiration t : Int) : Protocol × Except PErr Policy :=
  match alookup p.risk_modules risk_module_name with
  | none => (p, .error .riskModuleNotFound)
  | some rm =>
    let p1 := { p with policy_count := p.policy_count + 1 }
    let policy := Policy.build p1.policy_count rm payout premium loss_prob t expiration
    if policy.interest_rate ≤ 0 then (p1, .error .invalidPolicy)
    else
      let ocean := (collectOcean p1.etokens policy t).1
      let ocean_per_token := (collectOcean p1.etokens policy t).2
      if ocean < policy.mcr then (p1, .error .insufficientCapital)
      else
        match lockLoop p1.etokens ocean_per_token policy policy.mcr ocean policy.mcr t with
        | (etokens1, .error err) => ({ p1 with etokens := etokens1 }, .error err)
        | (etokens1, .ok funds) =>
          let policy1 := { policy with locked_funds := funds }
          ({ p1 with etokens := etokens1, policies := p1.policies ++ [policy1] },
            .ok policy1)

/-- Specification-side description of the eligible pools of
`new_policy` as the code has them: pools accepting the policy whose ocean is
nonzero, in registration order, paired with their ocean. -/
def eligibleNe (etokens : List (String × EToken)) (policy : Policy) (t : Int) :
    List (String × Int) :=
  (etokens.filter (fun kv => kv.2.accepts policy t && decide (kv.2.ocean t ≠ 0))).map
    (fun kv => (kv.2.name, kv.2.ocean t))

/-- Specification-side description of the eligible pools exactly as claim C2
words it: pools accepting the policy whose ocean is strictly positive. -/
def eligibleGt (etokens : List (String × EToken)) (policy : Policy) (t : Int) :
    List (String × Int) :=
  (etokens.filter (fun kv => kv.2.accepts policy t && decide (0 < kv.2.ocean t))).map
    (fun kv => (kv.2.name, kv.2.ocean t))

/-- Specification-side description of the allocation: every pool but the last
receives the truncated proportional share `mcr * ocean_i / total_ocean`, and
the last pool receives `mcr` minus the sum of the earlier allocations. -/
def allocSpec (pairs : List (String × Int)) (mcr ocean : Int) : List (String × Int) :=
  match pairs.getLast? with
  | none => []
  | some last =>
    let firsts := pairs.dropLast.map (fun kv => (kv.1, wadDiv (wadMul mcr kv.2) ocean))
    firsts ++ [(last.1, mcr - (firsts.map Prod.snd).sum)]

/-! Association-list lemmas. -/

theorem alookup_aset_self {V : Type} (l : List (String × V)) (k : String) (v : V) :
    alookup (aset l k v) k = some v := by
  induction l with
  | nil => simp [aset, alookup]
  | cons hd tl ih =>
    by_cases h : k = hd.1
    · simp [aset, h, alookup]
    · simpa [aset, h, alookup] using ih

theorem aset_aset {V : Type} (l : List (String × V)) (k : String) (v1 v2 : V) :
    aset (aset l k v1) k v2 = aset l k v2 := by
  induction l with
  | nil => simp [aset]
  | cons hd tl ih =>
    by_cases h : k = hd.1
    · simp [aset, h]
    · simp [aset, h, ih]

theorem aerase_aset_none {V : Type} (l : List (String × V)) (k : String) (v : V)
    (h : alookup l k = none) : aerase (aset l k v) k = l := by
  induction l with
  | nil => simp [aset, aerase]
  | cons hd tl ih =>
    by_cases hk : k = hd.1
    · simp [alookup, hk] at h
    · simp [alookup, hk] at h
      simp [aset, hk, aerase, ih h]

/-! Fixed-point arithmetic lemmas. -/

theorem WAD_pos : (0 : Int) < WAD := by norm_num [WAD]

theorem RAY_pos : (0 : Int) < RAY := by norm_num [RAY]

theorem rayMul_rayFromValue (a n : Int) : rayMul a (rayFromValue n) = a * n := by
  have h : a * (n * RAY) = a * n * RAY := by ring
  simp [rayMul, rayFromValue, h, Int.mul_tdiv_cancel _ RAY_pos.ne']

theorem rayMul_zero_right (a : Int) : rayMul a 0 = 0 := by
  simp [rayMul]

theorem rayMul_zero_left (a : Int) : rayMul 0 a = 0 := by
  simp [rayMul]

theorem rayDiv_zero_left (a : Int) : rayDiv 0 a = 0 := by
  simp [rayDiv]

/-- Realizing the index at the pool last-update time is the identity on the
index value: the projection increment vanishes. -/
theorem calc_index_at_last (e : EToken) (t : Int) (h : e.last_index_update = t) :
    e._calculate_current_index t = e.current_index := by
  simp [EToken._calculate_current_index, h, rayFromValue, rayMul_zero_right,
    rayMul_zero_left, rayDiv_zero_left]

/-- Realizing then projecting at the same instant equals projecting once. -/
theorem calc_index_update (e : EToken) (t : Int) :
    (e._update_current_index t)._calculate_current_index t =
      e._calculate_current_index t := by
  have h : (e._update_current_index t).last_index_update = t := rfl
  rw [calc_index_at_last _ _ h]
  rfl

/-- Total supply is unchanged by realizing the index at the same instant. -/
theorem total_supply_update (e : EToken) (t : Int) :
    (e._update_current_index t).total_supply t = e.total_supply t := by
  simp [EToken.total_supply, calc_index_update]
  rfl

theorem SECONDS_IN_YEAR_pos : (0 : Int) < SECONDS_IN_YEAR := by norm_num [SECONDS_IN_YEAR]

/-- Under nonnegative index and rate and a projection instant not before the
last realization, the projected index is the linear formula with the two
truncating divisions written as Euclidean division. -/
theorem calc_index_ediv (e : EToken) (t : Int) (hcur : 0 ≤ e.current_index)
    (hrate : 0 ≤ e.token_interest_rate) (hlast : e.last_index_update ≤ t) :
    e._calculate_current_index t =
      e.current_index +
        e.current_index * (t - e.last_index_update) * e.token_interest_rate / RAY /
          SECONDS_IN_YEAR := by
  have hΔ : 0 ≤ t - e.last_index_update := sub_nonneg.mpr hlast
  have hA : 0 ≤ e.current_index * (t - e.last_index_update) * e.token_interest_rate :=
    mul_nonneg (mul_nonneg hcur hΔ) hrate
  have hB : 0 ≤ e.current_index * (t - e.last_index_update) * e.token_interest_rate / RAY :=
    Int.ediv_nonneg hA RAY_pos.le
  unfold EToken._calculate_current_index
  rw [rayMul_rayFromValue]
  rw [show rayMul (e.current_index * (t - e.last_index_update)) e.token_interest_rate =
      e.current_index * (t - e.last_index_update) * e.token_interest_rate / RAY from by
    rw [rayMul, Int.tdiv_eq_ediv hA RAY_pos.le]]
  rw [show rayDiv
      (e.current_index * (t - e.last_index_update) * e.token_interest_rate / RAY)
      (rayFromValue SECONDS_IN_YEAR) =
      e.current_index * (t - e.last_index_update) * e.token_interest_rate / RAY /
        SECONDS_IN_YEAR from by
    rw [rayDiv, rayFromValue,
      Int.tdiv_eq_ediv (mul_nonneg hB RAY_pos.le)
        (mul_nonneg SECONDS_IN_YEAR_pos.le RAY_pos.le),
      Int.mul_ediv_mul_of_pos_left _ _ RAY_pos]]

/-- C7: for any pool with nonnegative current index and token interest rate
and any times `last_index_update <= t1 <= t2` (so no rate change occurs
between them), the projected index of `_calculate_current_index` is
non-decreasing, and it matches the linear projection
`current_index + current_index * (t - last_index_update) * token_interest_rate
/ SECONDS_PER_YEAR` with the truncating divisions of the code. -/
theorem C7_index_monotone (e : EToken) (t1 t2 : Int) (hcur : 0 ≤ e.current_index)
    (hrate : 0 ≤ e.token_interest_rate) (hlast : e.last_index_update ≤ t1)
    (h12 : t1 ≤ t2) :
    e._calculate_current_index t1 ≤ e._calculate_current_index t2 ∧
    e._calculate_current_index t1 =
      e.current_index +
        e.current_index * (t1 - e.last_index_update) * e.token_interest_rate / RAY /
          SECONDS_IN_YEAR := by
  have h1 := calc_index_ediv e t1 hcur hrate hlast
  have h2 := calc_index_ediv e t2 hcur hrate (le_trans hlast h12)
  refine ⟨?_, h1⟩
  rw [h1, h2]
  have hX : e.current_index * (t1 - e.last_index_update) * e.token_interest_rate ≤
      e.current_index * (t2 - e.last_index_update) * e.token_interest_rate :=
    mul_le_mul_of_nonneg_right
      (mul_le_mul_of_nonneg_left (sub_le_sub_right h12 _) hcur) hrate
  exact add_le_add_left
    (Int.ediv_le_ediv SECONDS_IN_YEAR_pos (Int.ediv_le_ediv RAY_pos hX)) _

/-- Witness for C7 at a concrete pool: index one, rate 0.1 per year, times
five and ten seconds after the last realization. -/
def C7pool : EToken :=
  { EToken.build "P" 63072000 0 with token_interest_rate := 10 ^ 26 }

theorem C7_index_monotone_witness :
    C7pool._calculate_current_index 5 ≤ C7pool._calculate_current_index 10 ∧
    C7pool._calculate_current_index 5 =
      C7pool.current_index +
        C7pool.current_index * (5 - C7pool.last_index_update) *
          C7pool.token_interest_rate / RAY / SECONDS_IN_YEAR :=
  C7_index_monotone C7pool 5 10 (by decide) (by decide) (by decide) (by decide)

theorem foldl_add_snd (l : List (String × Int)) (a : Int) :
    l.foldl (fun acc kv => acc + kv.2) a = a + (l.map Prod.snd).sum := by
  induction l generalizing a with
  | nil => simp
  | cons hd tl ih => simp [List.foldl_cons, ih, add_assoc]

/-- C8: `total_supply()` returns the sum of all stored scaled balances
multiplied by the index projected to the given instant, and it performs no
state update: it is a pure function of the pool (realizing the index at the
same instant leaves its value unchanged, and in this embedding the pool state
is not even returned). -/
theorem C8_total_supply_projection (e : EToken) (t : Int) :
    e.total_supply t =
      rayToWad (rayMul (wadToRay ((e.balances.map Prod.snd).sum))
        (e._calculate_current_index t)) ∧
    (e._update_current_index t).total_supply t = e.total_supply t := by
  constructor
  · simp [EToken.total_supply, foldl_add_snd]
  · exact total_supply_update e t

/-- Shape of a successful `lock_mcr`: the assertion passed, the index was
realized, `mcr` and `mcr_interest_rate` were updated by the two branches, and
`token_interest_rate` was derived from the total supply read at entry. -/
theorem lock_mcr_ok_fields (e : EToken) (pol : Policy) (amt t : Int) (e1 : EToken)
    (h : e.lock_mcr pol amt t = .ok e1) :
    e1.balances = e.balances ∧
    e1.current_index = e._calculate_current_index t ∧
    e1.last_index_update = t ∧
    e1.token_interest_rate =
      rayDiv (rayMul e1.mcr_interest_rate (wadToRay e1.mcr))
        (wadToRay (e.total_supply t)) ∧
    (e.mcr = 0 → e1.mcr = amt ∧ e1.mcr_interest_rate = pol.interest_rate) ∧
    (e.mcr ≠ 0 → e1.mcr = e.mcr + amt ∧ e1.mcr_interest_rate =
      rayDiv (rayMul e.mcr_interest_rate (wadToRay e.mcr) +
        rayMul pol.interest_rate (wadToRay amt)) (wadToRay (e.mcr + amt))) := by
  simp only [EToken.lock_mcr] at h
  split at h
  · by_cases hm : e.mcr = 0
    · simp only [EToken._update_current_index, hm, if_pos, Except.ok.injEq] at h
      subst h
      simp [hm, EToken._update_current_index]
    · simp only [EToken._update_current_index, hm, if_neg, Except.ok.injEq, ite_false] at h
      subst h
      simp [hm, EToken._update_current_index]
  · exact absurd h (by simp)

/-- Total supply depends only on the balances and the projected index. -/
theorem total_supply_of_fields (e1 e : EToken) (t : Int)
    (hb : e1.balances = e.balances)
    (hc : e1.current_index = e._calculate_current_index t)
    (hl : e1.last_index_update = t) :
    e1.total_supply t = e.total_supply t := by
  unfold EToken.total_supply
  rw [hb, calc_index_at_last e1 t hl, hc]

/-- C5: a successful `lock_mcr(policy, amount)` sets `mcr_interest_rate` to
`policy.interest_rate` when the pool mcr was zero, and otherwise to the
capital-weighted mean `(old_rate * old_mcr + policy.interest_rate * amount) /
(old_mcr + amount)` computed in `Ray` arithmetic. -/
theorem C5_lock_mcr_blend (e : EToken) (pol : Policy) (amt t : Int) (e1 : EToken)
    (h : e.lock_mcr pol amt t = .ok e1) :
    (e.mcr = 0 → e1.mcr_interest_rate = pol.interest_rate) ∧
    (e.mcr ≠ 0 → e1.mcr_interest_rate =
      rayDiv (rayMul e.mcr_interest_rate (wadToRay e.mcr) +
        rayMul pol.interest_rate (wadToRay amt)) (wadToRay (e.mcr + amt))) := by
  obtain ⟨-, -, -, -, h0, h1⟩ := lock_mcr_ok_fields e pol amt t e1 h
  exact ⟨fun hm => (h0 hm).2, fun hm => (h1 hm).2⟩

/-- C6: immediately after a successful `lock_mcr` the pool satisfies
`token_interest_rate = mcr_interest_rate * mcr / total_supply()` with
`total_supply()` evaluated on the post-state. -/
theorem C6_token_rate (e : EToken) (pol : Policy) (amt t : Int) (e1 : EToken)
    (h : e.lock_mcr pol amt t = .ok e1) :
    e1.token_interest_rate =
      rayDiv (rayMul e1.mcr_interest_rate (wadToRay e1.mcr))
        (wadToRay (e1.total_supply t)) := by
  obtain ⟨hb, hc, hl, htok, -, -⟩ := lock_mcr_ok_fields e pol amt t e1 h
  rw [total_supply_of_fields e1 e t hb hc hl]
  exact htok

deriving instance DecidableEq for Except

/-- Pool for the blended-rate scenario of the spec: $100 of mcr at rate 0.10
per year already locked, $400 of deposits, so ocean $300. -/
def C56pool : EToken :=
  { EToken.build "P" 63072000 0 with
    balances := [("A", 400 * 10 ^ 18)]
    indexes := [("A", RAY)]
    timestamps := [("A", 0)]
    mcr := 100 * 10 ^ 18
    mcr_interest_rate := 10 ^ 26
    token_interest_rate := 25 * 10 ^ 24 }

/-- Policy with `interest_rate` 0.20 per year (as a `Ray`, `2 * 10^26`). -/
def C56polB : Policy :=
  Policy.build 2 (RiskModule.build "RM" 100 0 0) (120 * 10 ^ 18) (20 * 10 ^ 18) 0 0 31536000

/-- Pool state after locking $300 at rate 0.20: blended rate 0.175 per year. -/
def C56post : EToken :=
  { C56pool with
    mcr := 400 * 10 ^ 18
    mcr_interest_rate := 175 * 10 ^ 24
    token_interest_rate := 175 * 10 ^ 24 }

theorem C5_lock_mcr_blend_witness :
    C56pool.mcr ≠ 0 ∧
    C56pool.lock_mcr C56polB (300 * 10 ^ 18) 0 = .ok C56post ∧
    C56post.mcr_interest_rate =
      rayDiv (rayMul C56pool.mcr_interest_rate (wadToRay C56pool.mcr) +
        rayMul C56polB.interest_rate (wadToRay (300 * 10 ^ 18)))
        (wadToRay (C56pool.mcr + 300 * 10 ^ 18)) ∧
    C56post.mcr_interest_rate = 175 * 10 ^ 24 :=
  ⟨by decide, by decide,
    (C5_lock_mcr_blend C56pool C56polB (300 * 10 ^ 18) 0 C56post (by decide)).2
      (by decide),
    by decide⟩

theorem C6_token_rate_witness :
    C56post.token_interest_rate =
      rayDiv (rayMul C56post.mcr_interest_rate (wadToRay C56post.mcr))
        (wadToRay (C56post.total_supply 0)) :=
  C6_token_rate C56pool C56polB (300 * 10 ^ 18) 0 C56post (by decide)

/-- C10: for a provider that is tracked in `balances` but whose visible
balance reads zero, `redeem` returns zero for every requested amount and
leaves all three provider-keyed maps exactly as they were. -/
theorem C10_redeem_zero_keeps_entries (e : EToken) (p : String) (t : Int)
    (amount : Option Int) (b : Int)
    (hp : alookup e.balances p = some b)
    (h0 : (e.balance_of p t).1 = 0) :
    (e.redeem p amount t).1 = 0 ∧
    (e.redeem p amount t).2.balances = e.balances ∧
    (e.redeem p amount t).2.indexes = e.indexes ∧
    (e.redeem p amount t).2.timestamps = e.timestamps := by
  simp only [EToken.redeem, h0, if_pos]
  simp [EToken.balance_of, hp, EToken._update_current_index]

/-- Pool reached from a fresh pool by `deposit(p, Wad(0))`: the provider is
tracked in all three maps with a zero balance. -/
def C10pool : EToken := ((EToken.build "P" 63072000 0).deposit "p" 0 0).2

theorem C10_redeem_zero_keeps_entries_witness :
    alookup C10pool.balances "p" = some 0 ∧
    (C10pool.balance_of "p" 0).1 = 0 ∧
    (C10pool.redeem "p" (some 7) 0).1 = 0 ∧
    (C10pool.redeem "p" (some 7) 0).2.balances = C10pool.balances ∧
    (C10pool.redeem "p" (some 7) 0).2.indexes = C10pool.indexes ∧
    (C10pool.redeem "p" (some 7) 0).2.timestamps = C10pool.timestamps := by
  have h := C10_redeem_zero_keeps_entries C10pool "p" 0 (some 7) 0 (by decide) (by decide)
  exact ⟨by decide, by decide, h.1, h.2.1, h.2.2.1, h.2.2.2⟩

/-- Scaling a deposit through the index and back is exact whenever the
deposit times the index is a multiple of the `Wad` scale. -/
theorem roundtrip_balance (x i : Int) (hi : i ≠ 0) (hdvd : x * i % WAD = 0) :
    rayToWad (rayDiv (rayMul (wadToRay x) i) i) = x := by
  obtain ⟨k, hk⟩ := Int.dvd_of_emod_eq_zero hdvd
  have hRAYne : RAY ≠ 0 := RAY_pos.ne'
  have hscale : RAY = WAD * 10 ^ 9 := by norm_num [RAY, WAD]
  have h9 : ((10 : Int) ^ 9) ≠ 0 := by norm_num
  have h1 : rayMul (wadToRay x) i = k := by
    rw [rayMul, wadToRay,
      show x * 10 ^ 9 * i = k * RAY from by
        rw [hscale]; linear_combination (10 : Int) ^ 9 * hk]
    exact Int.mul_tdiv_cancel k hRAYne
  have h2 : rayDiv k i = x * 10 ^ 9 := by
    rw [rayDiv,
      show k * RAY = x * 10 ^ 9 * i from by
        rw [hscale]; linear_combination (-(10 : Int) ^ 9) * hk]
    exact Int.mul_tdiv_cancel _ hi
  rw [h1, h2, rayToWad, Int.mul_tdiv_cancel x h9]

/-- C4 (amended): for a provider with no existing entry, a positive amount,
and a nonzero projected index whose product with the amount is a multiple of
the `Wad` scale (for instance any amount when the index is exactly one),
`deposit(p, x)` immediately followed by `redeem(p, x)` at the same instant
returns `x` and removes the provider from all three provider-keyed maps,
restoring the pre-deposit absence of entries. -/
theorem C4_deposit_redeem_roundtrip (e : EToken) (p : String) (x t : Int)
    (hb : alookup e.balances p = none)
    (hi : alookup e.indexes p = none)
    (ht : alookup e.timestamps p = none)
    (hx : 0 < x)
    (hc : e._calculate_current_index t ≠ 0)
    (hdvd : x * e._calculate_current_index t % WAD = 0) :
    ((e.deposit p x t).2.redeem p (some x) t).1 = x ∧
    alookup ((e.deposit p x t).2.redeem p (some x) t).2.balances p = none ∧
    alookup ((e.deposit p x t).2.redeem p (some x) t).2.indexes p = none ∧
    alookup ((e.deposit p x t).2.redeem p (some x) t).2.timestamps p = none := by
  set i := e._calculate_current_index t with hidef
  have hdep : (e.deposit p x t).2 =
      { e with
        current_index := i
        last_index_update := t
        balances := aset e.balances p x
        indexes := aset e.indexes p i
        timestamps := aset e.timestamps p t } := by
    simp [EToken.deposit, EToken.balance_of, EToken._update_current_index, hb, hidef]
  rw [hdep]
  set D : EToken :=
    { e with
      current_index := i
      last_index_update := t
      balances := aset e.balances p x
      indexes := aset e.indexes p i
      timestamps := aset e.timestamps p t } with hDdef
  have hDup : D._update_current_index t = D := by
    rw [EToken._update_current_index, calc_index_at_last D t rfl]
  have hlb : alookup D.balances p = some x := alookup_aset_self _ _ _
  have hli : alookup D.indexes p = some i := alookup_aset_self _ _ _
  have hbo : D.balance_of p t = (x, D) := by
    simp only [EToken.balance_of, hlb, hDup, hli]
    simp [roundtrip_balance x i hc hdvd]
  simp only [EToken.redeem, hbo]
  simp [hx.ne', lt_irrefl, sub_self, EToken._update_current_index, aset_aset,
    aerase_aset_none, hb, hi, ht]

theorem C4_deposit_redeem_roundtrip_witness :
    alookup (EToken.build "P" 63072000 0).balances "p" = none ∧
    (((EToken.build "P" 63072000 0).deposit "p" (5 * 10 ^ 18) 0).2.redeem "p"
      (some (5 * 10 ^ 18)) 0).1 = 5 * 10 ^ 18 ∧
    alookup (((EToken.build "P" 63072000 0).deposit "p" (5 * 10 ^ 18) 0).2.redeem "p"
      (some (5 * 10 ^ 18)) 0).2.balances "p" = none ∧
    alookup (((EToken.build "P" 63072000 0).deposit "p" (5 * 10 ^ 18) 0).2.redeem "p"
      (some (5 * 10 ^ 18)) 0).2.indexes "p" = none ∧
    alookup (((EToken.build "P" 63072000 0).deposit "p" (5 * 10 ^ 18) 0).2.redeem "p"
      (some (5 * 10 ^ 18)) 0).2.timestamps "p" = none := by
  have h := C4_deposit_redeem_roundtrip (EToken.build "P" 63072000 0) "p" (5 * 10 ^ 18) 0
    (by decide) (by decide) (by decide) (by decide) (by decide) (by decide)
  exact ⟨by decide, h.1, h.2.1, h.2.2.1, h.2.2.2⟩

/-- Protocol state reached by registering pool `P`, depositing $100 from `q`
and issuing a policy of mcr $100 at yearly rate 0.10, so that the pool has a
positive token interest rate and, one second later, a projected index
slightly above one. -/
def C4prot : Protocol :=
  let p0 := (Protocol.build.add_risk_module (RiskModule.build "RM" 100 0 0)).add_etoken
    (EToken.build "P" 63072000 0)
  let pe := (alookup p0.etokens "P").getD (EToken.build "X" 0 0)
  let p1 := { p0 with etokens := aset p0.etokens "P" (pe.deposit "q" (100 * 10 ^ 18) 0).2 }
  (p1.new_policy "RM" (110 * 10 ^ 18) (10 * 10 ^ 18) 0 31536000 0).1

/-- Pool `P` of `C4prot`. -/
def C4pool : EToken := (alookup C4prot.etokens "P").getD (EToken.build "X" 0 0)

/-- Counterexample to C4 as stated.  Three concrete runs violate the claim:
depositing 3 wei at a rough index and redeeming 3 returns 2, not 3 (the
quantification over every amount fails under truncation); depositing zero and
redeeming zero returns the amount but leaves the provider tracked with a zero
balance; and a provider with a prior balance of $7 who deposits and redeems
$5 keeps all entries, with balance $7. -/
theorem C4_counterexample :
    (((C4pool.deposit "p" 3 1).2.redeem "p" (some 3) 1).1 = 2 ∧ (2 : Int) ≠ 3) ∧
    ((((EToken.build "P" 63072000 0).deposit "p" 0 0).2.redeem "p" (some 0) 0).1 = 0 ∧
      alookup ((((EToken.build "P" 63072000 0).deposit "p" 0 0).2.redeem "p"
        (some 0) 0).2.balances) "p" = some 0) ∧
    alookup (((((EToken.build "P" 63072000 0).deposit "p" (7 * 10 ^ 18) 0).2.deposit "p"
      (5 * 10 ^ 18) 0).2.redeem "p" (some (5 * 10 ^ 18)) 0).2.balances) "p" =
      some (7 * 10 ^ 18) := by
  decide

/-- Pure form of the allocation loop: the share of every pool but the last is
the truncated proportional share, the last pool takes the running remainder. -/
def allocAux : List (String × Int) → Int → Int → Int → List (String × Int)
  | [], _, _, _ => []
  | kv :: rest, mcr, ocean, notLocked =>
    let s := if rest.isEmpty then notLocked else wadDiv (wadMul mcr kv.2) ocean
    (kv.1, s) :: allocAux rest mcr ocean (notLocked - s)

theorem allocAux_sum (mcr ocean : Int) :
    ∀ (pairs : List (String × Int)) (M : Int), pairs ≠ [] →
    ((allocAux pairs mcr ocean M).map Prod.snd).sum = M := by
  intro pairs
  induction pairs with
  | nil => intro M h; exact absurd rfl h
  | cons kv rest ih =>
    intro M h
    cases rest with
    | nil => simp [allocAux]
    | cons kv2 rest2 =>
      have hne : kv2 :: rest2 ≠ [] := by simp
      rw [show allocAux (kv :: kv2 :: rest2) mcr ocean M =
          (kv.1, wadDiv (wadMul mcr kv.2) ocean) ::
            allocAux (kv2 :: rest2) mcr ocean (M - wadDiv (wadMul mcr kv.2) ocean) from rfl]
      simp only [List.map_cons, List.sum_cons]
      rw [ih _ hne]
      ring

theorem allocAux_spec (mcr ocean : Int) :
    ∀ (pairs : List (String × Int)) (M : Int),
    allocAux pairs mcr ocean M =
      match pairs.getLast? with
      | none => []
      | some last =>
        let firsts := pairs.dropLast.map (fun kv => (kv.1, wadDiv (wadMul mcr kv.2) ocean))
        firsts ++ [(last.1, M - (firsts.map Prod.snd).sum)] := by
  intro pairs
  induction pairs with
  | nil => intro M; simp [allocAux]
  | cons kv rest ih =>
    intro M
    cases rest with
    | nil => simp [allocAux]
    | cons kv2 rest2 =>
      rw [show allocAux (kv :: kv2 :: rest2) mcr ocean M =
          (kv.1, wadDiv (wadMul mcr kv.2) ocean) ::
            allocAux (kv2 :: rest2) mcr ocean (M - wadDiv (wadMul mcr kv.2) ocean) from rfl]
      rw [ih]
      cases hl : (kv2 :: rest2).getLast? with
      | none => simp at hl
      | some last => simp [hl, sub_sub]

theorem allocSpec_allocAux (pairs : List (String × Int)) (mcr ocean : Int) :
    allocSpec pairs mcr ocean = allocAux pairs mcr ocean mcr := by
  rw [allocAux_spec]
  rfl

theorem collect_go (policy : Policy) (t : Int) (ets : List (String × EToken)) :
    ∀ (oc : Int) (acc : List (String × Int)),
    ets.foldl (collectStep policy t) (oc, acc) =
    (oc + ((eligibleNe ets policy t).map Prod.snd).sum,
      acc ++ eligibleNe ets policy t) := by
  induction ets with
  | nil => intro oc acc; simp [eligibleNe]
  | cons kv rest ih =>
    intro oc acc
    rw [List.foldl_cons]
    cases ha : kv.2.accepts policy t with
    | false =>
      rw [show collectStep policy t (oc, acc) kv = (oc, acc) from by
        simp [collectStep, ha]]
      rw [ih oc acc]
      simp [eligibleNe, List.filter_cons, ha]
    | true =>
      by_cases ho : kv.2.ocean t = 0
      · rw [show collectStep policy t (oc, acc) kv = (oc, acc) from by
          simp [collectStep, ha, ho]]
        rw [ih oc acc]
        simp [eligibleNe, List.filter_cons, ha, ho]
      · rw [show collectStep policy t (oc, acc) kv =
            (oc + kv.2.ocean t, acc ++ [(kv.2.name, kv.2.ocean t)]) from by
          simp [collectStep, ha, ho]]
        rw [ih]
        simp [eligibleNe, List.filter_cons, ha, ho, add_assoc]

theorem collectOcean_eq (ets : List (String × EToken)) (policy : Policy) (t : Int) :
    collectOcean ets policy t =
      (((eligibleNe ets policy t).map Prod.snd).sum, eligibleNe ets policy t) := by
  unfold collectOcean
  rw [collect_go policy t ets 0 []]
  simp

theorem lock_mcr_error (e : EToken) (pol : Policy) (amt t : Int) (err : PErr)
    (h : e.lock_mcr pol amt t = .error err) : err = .insufficientOcean := by
  simp only [EToken.lock_mcr] at h
  split at h
  · exact absurd h (by simp)
  · exact (Except.error.inj h).symm

theorem lockLoop_ok_funds (pol : Policy) (mcr ocean t : Int) :
    ∀ (pairs : List (String × Int)) (ets ets2 : List (String × EToken)) (M : Int)
      (funds : List (String × Int)),
    lockLoop ets pairs pol mcr ocean M t = (ets2, .ok funds) →
    funds = allocAux pairs mcr ocean M := by
  intro pairs
  induction pairs with
  | nil =>
    intro ets ets2 M funds h
    simp only [lockLoop, Prod.mk.injEq, Except.ok.injEq] at h
    simp [allocAux, ← h.2]
  | cons kv rest ih =>
    intro ets ets2 M funds h
    obtain ⟨nm, o⟩ := kv
    simp only [lockLoop] at h
    split at h
    · simp at h
    · split at h
      · simp at h
      · rename_i etk1 hlk
        split at h
        · simp at h
        · rename_i ets3 funds1 hrec
          simp only [Prod.mk.injEq, Except.ok.injEq] at h
          rw [← h.2, ih _ _ _ _ hrec]
          simp [allocAux]

theorem lockLoop_error_shape (pol : Policy) (mcr ocean t : Int) :
    ∀ (pairs : List (String × Int)) (ets ets2 : List (String × EToken)) (M : Int)
      (err : PErr),
    lockLoop ets pairs pol mcr ocean M t = (ets2, .error err) →
    err = .insufficientOcean ∨ err = .poolNotFound := by
  intro pairs
  induction pairs with
  | nil =>
    intro ets ets2 M err h
    simp only [lockLoop] at h
    simp at h
  | cons kv rest ih =>
    intro ets ets2 M err h
    obtain ⟨nm, o⟩ := kv
    simp only [lockLoop] at h
    split at h
    · simp only [Prod.mk.injEq, Except.error.injEq] at h
      exact Or.inr h.2.symm
    · rename_i etk hka
      split at h
      · rename_i e2 hlk
        simp only [Prod.mk.injEq, Except.error.injEq] at h
        exact Or.inl (h.2 ▸ lock_mcr_error _ _ _ _ _ hlk)
      · rename_i etk1 hlk
        split at h
        · rename_i ets3 e3 hrec
          simp only [Prod.mk.injEq, Except.error.injEq] at h
          exact h.2 ▸ ih _ _ _ _ hrec
        · simp at h

/-- C1: for every policy successfully issued by `new_policy` whose mcr is
nonnegative (as the data model guarantees via `premium < payout` and
`mcr_percentage` in the unit interval), the amounts in `locked_funds` sum to
exactly `policy.mcr` as integers: the last eligible pool absorbs the
truncation remainder, and with no eligible pool only `mcr = 0` passes the
capital check. -/
theorem C1_mcr_conservation (p : Protocol) (rmn : String)
    (payout premium loss_prob expiration t : Int) (p1 : Protocol) (pol : Policy)
    (h : p.new_policy rmn payout premium loss_prob expiration t = (p1, .ok pol))
    (hmcr : 0 ≤ pol.mcr) :
    (pol.locked_funds.map Prod.snd).sum = pol.mcr := by
  simp only [Protocol.new_policy] at h
  split at h
  · simp at h
  · rename_i rm hrm
    split at h
    · simp at h
    · rename_i hrate
      split at h
      · simp at h
      · rename_i hcap
        split at h
        · simp at h
        · rename_i ets1 funds hll
          simp only [Prod.mk.injEq, Except.ok.injEq] at h
          obtain ⟨hp1, hpol⟩ := h
          subst hpol
          set policy :=
            Policy.build (p.policy_count + 1) rm payout premium loss_prob t expiration
            with hpolicy
          simp only at hmcr ⊢
          rw [collectOcean_eq] at hll hcap
          have hfunds := lockLoop_ok_funds _ _ _ _ _ _ _ _ _ hll
          by_cases he : eligibleNe p.etokens policy t = []
          · rw [he] at hfunds hcap
            simp [allocAux] at hfunds
            simp at hcap
            rw [hfunds]
            simp
            omega
          · rw [hfunds]
            exact allocAux_sum _ _ _ _ he

/-- C2 (amended): the pools receiving locked funds in `new_policy` are
exactly those accepting the policy with nonzero ocean (not strictly positive
ocean: a pool driven insolvent by `redeem` has negative ocean and still
participates), in registration order; all but the last receive the truncated
proportional share and the last receives `mcr` minus the earlier shares. -/
theorem C2_allocation (p : Protocol) (rmn : String)
    (payout premium loss_prob expiration t : Int) (p1 : Protocol) (pol : Policy)
    (h : p.new_policy rmn payout premium loss_prob expiration t = (p1, .ok pol)) :
    pol.locked_funds =
      allocSpec (eligibleNe p.etokens pol t) pol.mcr
        (((eligibleNe p.etokens pol t).map Prod.snd).sum) := by
  simp only [Protocol.new_policy] at h
  split at h
  · simp at h
  · rename_i rm hrm
    split at h
    · simp at h
    · rename_i hrate
      split at h
      · simp at h
      · rename_i hcap
        split at h
        · simp at h
        · rename_i ets1 funds hll
          simp only [Prod.mk.injEq, Except.ok.injEq] at h
          obtain ⟨hp1, hpol⟩ := h
          subst hpol
          set policy :=
            Policy.build (p.policy_count + 1) rm payout premium loss_prob t expiration
            with hpolicy
          simp only
          rw [collectOcean_eq] at hll
          have hfunds := lockLoop_ok_funds _ _ _ _ _ _ _ _ _ hll
          rw [allocSpec_allocAux]
          exact hfunds

/-- C3 (amended): when `new_policy` fails with `InsufficientCapital`, no pool
state and no policy list changes; the resulting protocol differs from the
initial one exactly by the already-incremented `policy_count`. -/
theorem C3_insufficient_capital_state (p : Protocol) (rmn : String)
    (payout premium loss_prob expiration t : Int)
    (h : (p.new_policy rmn payout premium loss_prob expiration t).2 =
      .error .insufficientCapital) :
    (p.new_policy rmn payout premium loss_prob expiration t).1 =
      { p with policy_count := p.policy_count + 1 } := by
  cases hrm : alookup p.risk_modules rmn with
  | none => simp [Protocol.new_policy, hrm] at h
  | some rm =>
    simp only [Protocol.new_policy, hrm] at h ⊢
    set policy :=
      Policy.build (p.policy_count + 1) rm payout premium loss_prob t expiration
      with hpolicy
    by_cases hr : policy.interest_rate ≤ 0
    · simp [hr] at h
    · simp only [if_neg hr] at h ⊢
      by_cases hc : (collectOcean p.etokens policy t).1 < policy.mcr
      · simp only [if_pos hc] at h ⊢
      · simp only [if_neg hc] at h ⊢
        split at h
        · rename_i ets2 err hll
          have herr : err = PErr.insufficientCapital := Except.error.inj h
          rcases lockLoop_error_shape _ _ _ _ _ _ _ _ _ hll with h1 | h1 <;>
            rw [h1] at herr <;> exact absurd herr (by simp)
        · rename_i ets2 funds hll
          exact absurd h (by simp)

/-- C9: whenever the risk-module lookup succeeds, `new_policy` increments
`policy_count` before the interest-rate and capital checks, so the count is
incremented whether the call succeeds or fails, and a failing call leaves the
issued-policy list unchanged. -/
theorem C9_count_increment (p : Protocol) (rmn : String)
    (payout premium loss_prob expiration t : Int) (rm : RiskModule)
    (hrm : alookup p.risk_modules rmn = some rm) :
    (p.new_policy rmn payout premium loss_prob expiration t).1.policy_count =
      p.policy_count + 1 ∧
    (∀ err, (p.new_policy rmn payout premium loss_prob expiration t).2 = .error err →
      (p.new_policy rmn payout premium loss_prob expiration t).1.policies =
        p.policies) := by
  simp only [Protocol.new_policy, hrm]
  set policy :=
    Policy.build (p.policy_count + 1) rm payout premium loss_prob t expiration
    with hpolicy
  by_cases hr : policy.interest_rate ≤ 0
  · simp [hr]
  · simp only [if_neg hr]
    by_cases hc : (collectOcean p.etokens policy t).1 < policy.mcr
    · simp [if_pos hc]
    · simp only [if_neg hc]
      split
      · rename_i ets2 err hll
        exact ⟨rfl, fun err2 h2 => rfl⟩
      · rename_i ets2 funds hll
        refine ⟨rfl, fun err2 h2 => ?_⟩
        exact absurd h2 (by simp)

/-- Single-pool scenario: pool `P` with a $200 deposit from provider `A`. -/
def S1prot : Protocol :=
  let p0 := (Protocol.build.add_risk_module (RiskModule.build "RM" 100 0 0)).add_etoken
    (EToken.build "P" 63072000 0)
  let pe := (alookup p0.etokens "P").getD (EToken.build "X" 0 0)
  { p0 with etokens := aset p0.etokens "P" (pe.deposit "A" (200 * 10 ^ 18) 0).2 }

/-- Policy issued on `S1prot`: payout $110, premium $10, mcr $100, locked
entirely in pool `P`. -/
def S1pol : Policy :=
  { policy_id := 1
    risk_module := RiskModule.build "RM" 100 0 0
    premium := 10 * 10 ^ 18
    payout := 110 * 10 ^ 18
    mcr := 100 * 10 ^ 18
    loss_prob := 0
    start := 0
    expiration := 31536000
    locked_funds := [("P", 100 * 10 ^ 18)] }

theorem C1_mcr_conservation_witness :
    S1prot.new_policy "RM" (110 * 10 ^ 18) (10 * 10 ^ 18) 0 31536000 0 =
      ((S1prot.new_policy "RM" (110 * 10 ^ 18) (10 * 10 ^ 18) 0 31536000 0).1,
        .ok S1pol) ∧
    0 ≤ S1pol.mcr ∧
    (S1pol.locked_funds.map Prod.snd).sum = S1pol.mcr :=
  ⟨by decide, by decide,
    C1_mcr_conservation S1prot "RM" (110 * 10 ^ 18) (10 * 10 ^ 18) 0 31536000 0
      (S1prot.new_policy "RM" (110 * 10 ^ 18) (10 * 10 ^ 18) 0 31536000 0).1 S1pol
      (by decide) (by decide)⟩

theorem C2_allocation_witness :
    S1pol.locked_funds =
      allocSpec (eligibleNe S1prot.etokens S1pol 0) S1pol.mcr
        (((eligibleNe S1prot.etokens S1pol 0).map Prod.snd).sum) :=
  C2_allocation S1prot "RM" (110 * 10 ^ 18) (10 * 10 ^ 18) 0 31536000 0
    (S1prot.new_policy "RM" (110 * 10 ^ 18) (10 * 10 ^ 18) 0 31536000 0).1 S1pol
    (by decide)

/-- Protocol state with pool `P2` driven insolvent: `P2` holds $150 of mcr
but only $50 of supply after a $100 redemption, so its ocean is negative;
pool `P1` holds a fresh $200 deposit. -/
def C2prot : Protocol :=
  let p0 := ((Protocol.build.add_risk_module (RiskModule.build "RM" 100 0 0)).add_etoken
    (EToken.build "P1" 63072000 0)).add_etoken (EToken.build "P2" 63072000 0)
  let dflt := EToken.build "X" 0 0
  let p1 := { p0 with
    etokens := aset p0.etokens "P2"
      (((alookup p0.etokens "P2").getD dflt).deposit "B" (150 * 10 ^ 18) 0).2 }
  let p2 := (p1.new_policy "RM" (165 * 10 ^ 18) (15 * 10 ^ 18) 0 31536000 0).1
  let p3 := { p2 with
    etokens := aset p2.etokens "P2"
      (((alookup p2.etokens "P2").getD dflt).redeem "B" (some (100 * 10 ^ 18)) 0).2 }
  { p3 with
    etokens := aset p3.etokens "P1"
      (((alookup p3.etokens "P1").getD dflt).deposit "A" (200 * 10 ^ 18) 0).2 }

/-- Policy issued on `C2prot`: mcr $100, but $200 locked in `P1` and minus
$100 locked in the insolvent pool `P2`. -/
def C2pol : Policy :=
  { policy_id := 2
    risk_module := RiskModule.build "RM" 100 0 0
    premium := 10 * 10 ^ 18
    payout := 110 * 10 ^ 18
    mcr := 100 * 10 ^ 18
    loss_prob := 0
    start := 0
    expiration := 31536000
    locked_funds := [("P1", 200 * 10 ^ 18), ("P2", -(100 * 10 ^ 18))] }

/-- Counterexample to C2 as stated: on `C2prot` the issued policy locks funds
in pool `P2` whose ocean is negative (hence not `> 0`), and the allocation
predicted by the claim eligibility (`ocean > 0`, giving `P1` alone and a $100
share) differs from the locked funds the code produces. -/
theorem C2_counterexample :
    (C2prot.new_policy "RM" (110 * 10 ^ 18) (10 * 10 ^ 18) 0 31536000 0).2 =
      .ok C2pol ∧
    C2pol.locked_funds = [("P1", 200 * 10 ^ 18), ("P2", -(100 * 10 ^ 18))] ∧
    eligibleGt C2prot.etokens C2pol 0 = [("P1", 200 * 10 ^ 18)] ∧
    allocSpec (eligibleGt C2prot.etokens C2pol 0) C2pol.mcr
      (((eligibleGt C2prot.etokens C2pol 0).map Prod.snd).sum) =
      [("P1", 100 * 10 ^ 18)] ∧
    C2pol.locked_funds ≠
      allocSpec (eligibleGt C2prot.etokens C2pol 0) C2pol.mcr
        (((eligibleGt C2prot.etokens C2pol 0).map Prod.snd).sum) := by
  decide

/-- Protocol with a single pool whose ocean is $500. -/
def C3prot : Protocol :=
  let p0 := (Protocol.build.add_risk_module (RiskModule.build "RM" 100 0 0)).add_etoken
    (EToken.build "P" 63072000 0)
  let pe := (alookup p0.etokens "P").getD (EToken.build "X" 0 0)
  { p0 with etokens := aset p0.etokens "P" (pe.deposit "B" (500 * 10 ^ 18) 0).2 }

/-- Counterexample to C3 as stated: a policy with mcr $600 against $500 of
eligible ocean fails with `InsufficientCapital`, but the protocol state is
observably changed: `policy_count` was already incremented from 0 to 1. -/
theorem C3_counterexample :
    (C3prot.new_policy "RM" (660 * 10 ^ 18) (60 * 10 ^ 18) 0 31536000 0).2 =
      .error .insufficientCapital ∧
    (C3prot.new_policy "RM" (660 * 10 ^ 18) (60 * 10 ^ 18) 0 31536000 0).1 ≠ C3prot ∧
    (C3prot.new_policy "RM" (660 * 10 ^ 18) (60 * 10 ^ 18) 0 31536000 0).1.policy_count
      = 1 ∧
    C3prot.policy_count = 0 := by
  decide

theorem C3_insufficient_capital_state_witness :
    (C3prot.new_policy "RM" (660 * 10 ^ 18) (60 * 10 ^ 18) 0 31536000 0).1 =
      { C3prot with policy_count := C3prot.policy_count + 1 } :=
  C3_insufficient_capital_state C3prot "RM" (660 * 10 ^ 18) (60 * 10 ^ 18) 0 31536000 0
    (by decide)

theorem C9_count_increment_witness :
    (C3prot.new_policy "RM" (660 * 10 ^ 18) (60 * 10 ^ 18) 0 31536000 0).1.policy_count
      = C3prot.policy_count + 1 ∧
    (C3prot.new_policy "RM" (660 * 10 ^ 18) (60 * 10 ^ 18) 0 31536000 0).1.policies =
      C3prot.policies ∧
    C3prot.policies.length = 0 ∧
    (C3prot.new_policy "RM" (660 * 10 ^ 18) (60 * 10 ^ 18) 0 31536000 0).1.policy_count
      = 1 :=
  ⟨(C9_count_increment C3prot "RM" (660 * 10 ^ 18) (60 * 10 ^ 18) 0 31536000 0
      (RiskModule.build "RM" 100 0 0) (by decide)).1,
    (C9_count_increment C3prot "RM" (660 * 10 ^ 18) (60 * 10 ^ 18) 0 31536000 0
      (RiskModule.build "RM" 100 0 0) (by decide)).2 .insufficientCapital (by decide),
    by decide, by decide⟩

end Ensuro
